import Mathlib

/-!
# Verification of the subunit-js codec (`src/subunit-stream.js`)

A shallow embedding of the Subunit v2 encoder/decoder pair from
`src/subunit-stream.js`.  Byte buffers are `List Nat` whose elements are byte
values (< 256 wherever the JS code produces them).  JavaScript strings are
modelled as lists of Unicode scalar values (`List Nat`); Node's `'utf8'`
conversions are modelled by an explicit UTF-8 encoder/decoder that agrees with
Node on well-formed data (the replacement-character handling of Node for
malformed input is irrelevant to the verified properties, which only ever
decode well-formed sequences or truncations of ASCII).  Fallible JS operations
(`throw`, `RangeError` from out-of-bounds `Buffer` reads) are modelled with
`Option`: `none` means the JS code threw.  Crucially, `Buffer.prototype.slice`
and `BufferList.prototype.slice` *clamp* their range instead of throwing, and
the model reproduces that with `List.drop`/`List.take`.
-/

namespace Subunit

/-- `readVarInt(buf, index)` from subunit-stream.js lines 45-61.  The JS code
slices four bytes and reads with `readUInt8`/`readUIntBE`, which throw a
`RangeError` when the slice is too short; `none` models that throw.  For a
byte `first < 256`, the JS tag test `first & 0xC0` against `0x00/0x40/0x80`
is `first / 64 = 0/1/2` and `first & 0x3F` is `first % 64`; `|` of the
shifted 6-bit head with the low bytes is addition because the bit ranges are
disjoint. -/
def readVarInt (buf : List Nat) (index : Nat) : Option (Nat × Nat) := do
  let first ← buf[index]?
  let ty := first / 64
  let value := first % 64
  if ty = 0 then
    pure (1, value)
  else if ty = 1 then do
    let b1 ← buf[index + 1]?
    pure (2, value * 256 + b1)
  else if ty = 2 then do
    let b1 ← buf[index + 1]?
    let b2 ← buf[index + 2]?
    pure (3, value * 65536 + b1 * 256 + b2)
  else do
    let b1 ← buf[index + 1]?
    let b2 ← buf[index + 2]?
    let b3 ← buf[index + 3]?
    pure (4, value * 16777216 + b1 * 65536 + b2 * 256 + b3)

/-- The non-negative branch of `writeVarInt(value)` (subunit-stream.js lines
63-86).  Emits the big-endian bytes of `value | tag`; `none` models the
`'Value is too large to encode'` throw.  Since the size tag occupies the top
two bits of the first byte and the magnitude is below it, `|` is again
addition of disjoint ranges. -/
def writeVarIntN (v : Nat) : Option (List Nat) :=
  if v < 64 then some [v]
  else if v < 16384 then some [64 + v / 256, v % 256]
  else if v < 4194304 then some [128 + v / 65536, v / 256 % 256, v % 256]
  else if v < 1073741824 then
    some [192 + v / 16777216, v / 65536 % 256, v / 256 % 256, v % 256]
  else none

/-- `writeVarInt(value)` including the negative-input domain check
(`'Value must be greater than zero'`). -/
def writeVarInt (value : Int) : Option (List Nat) :=
  if value < 0 then none else writeVarIntN value.toNat

/-- One Unicode scalar value to its UTF-8 bytes (the encoding Node's
`Buffer.prototype.write(str, 'utf8')` applies to each scalar). -/
def utf8EncodeCp (c : Nat) : List Nat :=
  if c < 128 then [c]
  else if c < 2048 then [192 + c / 64, 128 + c % 64]
  else if c < 65536 then [224 + c / 4096, 128 + c / 64 % 64, 128 + c % 64]
  else [240 + c / 262144, 128 + c / 4096 % 64, 128 + c / 64 % 64, 128 + c % 64]

/-- A JS string (list of scalar values) to UTF-8 bytes, as
`Buffer.byteLength`/`Buffer.write` see it. -/
def utf8Encode (s : List Nat) : List Nat :=
  (s.map utf8EncodeCp).flatten

/-- Decode one UTF-8 sequence: the scalar value it denotes and the bytes
remaining after it.  A truncated multi-byte sequence at the end of the input
yields one replacement character and consumes everything. -/
def utf8DecodeOne (b : Nat) (rest : List Nat) : Nat × List Nat :=
  if b < 128 then (b, rest)
  else if b < 192 then (65533, rest)
  else if b < 224 then
    if rest.length < 1 then (65533, [])
    else ((b - 192) * 64 + (rest.getD 0 0 - 128), rest.drop 1)
  else if b < 240 then
    if rest.length < 2 then (65533, [])
    else ((b - 224) * 4096 + (rest.getD 0 0 - 128) * 64 + (rest.getD 1 0 - 128),
          rest.drop 2)
  else
    if rest.length < 3 then (65533, [])
    else ((b - 240) * 262144 + (rest.getD 0 0 - 128) * 4096 +
            (rest.getD 1 0 - 128) * 64 + (rest.getD 2 0 - 128),
          rest.drop 3)

theorem utf8DecodeOne_length (b : Nat) (rest : List Nat) :
    (utf8DecodeOne b rest).2.length ≤ rest.length := by
  unfold utf8DecodeOne
  repeat' split
  all_goals simp

/-- The decode loop behind `utf8Decode`, with an explicit iteration bound so
that the recursion is structural (every UTF-8 sequence consumes at least one
byte, so `fuel = length` always suffices; `utf8DecodeFuel_stable` below makes
that precise). -/
def utf8DecodeFuel : Nat → List Nat → List Nat
  | _, [] => []
  | 0, _ :: _ => []
  | n + 1, b :: rest =>
    (utf8DecodeOne b rest).1 :: utf8DecodeFuel n (utf8DecodeOne b rest).2

/-- UTF-8 bytes back to scalar values, as `buffer.toString('utf8')` produces
for well-formed input.  (Node's precise replacement-character behaviour on
malformed input is not reproduced; no verified property decodes malformed
non-ASCII data.) -/
def utf8Decode (l : List Nat) : List Nat :=
  utf8DecodeFuel l.length l

theorem utf8DecodeFuel_stable (n : Nat) : ∀ (m : Nat) (l : List Nat),
    l.length ≤ n → l.length ≤ m → utf8DecodeFuel n l = utf8DecodeFuel m l := by
  induction n with
  | zero =>
    intro m l hn _
    have : l = [] := List.eq_nil_of_length_eq_zero (by omega)
    subst this
    cases m <;> rfl
  | succ n ih =>
    intro m l hn hm
    cases l with
    | nil => cases m <;> rfl
    | cons b rest =>
      cases m with
      | zero => simp at hm
      | succ m =>
        show (utf8DecodeOne b rest).1 :: utf8DecodeFuel n (utf8DecodeOne b rest).2 =
          (utf8DecodeOne b rest).1 :: utf8DecodeFuel m (utf8DecodeOne b rest).2
        have hlen := utf8DecodeOne_length b rest
        rw [ih m (utf8DecodeOne b rest).2 (by simp at hn; omega) (by simp at hm; omega)]

/-- `readUtf8(buf, index)` (subunit-stream.js lines 88-96): a varint byte
length, then that many bytes decoded as UTF-8.  `buf.slice` *clamps*, so a
short payload silently yields a short string; only the varint read can
throw. -/
def readUtf8 (buf : List Nat) (index : Nat) : Option (Nat × List Nat) := do
  let (ll, lv) ← readVarInt buf index
  let payload := (buf.drop (index + ll)).take lv
  pure (ll + lv, utf8Decode payload)

/-- `writeUtf8(str)` (subunit-stream.js lines 98-107): varint UTF-8 byte
length followed by the UTF-8 bytes. -/
def writeUtf8 (s : List Nat) : Option (List Nat) := do
  let num ← writeVarIntN (utf8Encode s).length
  pure (num ++ utf8Encode s)

/-- One step of the bitwise CRC-32 update: the table lookup
`CRC_TABLE[(crc ^ byte) & 0xff] ^ (crc >>> 8)` of buffer-crc32 in its
equivalent bit-at-a-time form (reflected polynomial 0xEDB88320). -/
def crc32Step (crc b : Nat) : Nat :=
  (List.range 8).foldl
    (fun c _ => if c % 2 = 1 then Nat.xor (c / 2) 0xEDB88320 else c / 2)
    (Nat.xor crc b)

/-- CRC-32 of a byte list (buffer-crc32: initial value 0xFFFFFFFF, final
complement). -/
def crc32 (bytes : List Nat) : Nat :=
  Nat.xor (bytes.foldl crc32Step 0xFFFFFFFF) 0xFFFFFFFF

/-- The 4-byte big-endian buffer that buffer-crc32 returns. -/
def crc32Bytes (bytes : List Nat) : List Nat :=
  let c := crc32 bytes
  [c / 16777216 % 256, c / 65536 % 256, c / 256 % 256, c % 256]

/-- `buf.writeUInt32BE(v)`: `none` models the bounds-check throw for values
that do not fit in 32 bits. -/
def writeUInt32BE (v : Nat) : Option (List Nat) :=
  if v < 4294967296 then
    some [v / 16777216 % 256, v / 65536 % 256, v / 256 % 256, v % 256]
  else none

/-- `bl.readUInt8(i)`: BufferList slices (clamping) then reads, so a missing
byte is a `RangeError`. -/
def readUInt8 (bl : List Nat) (i : Nat) : Option Nat := bl[i]?

/-- `bl.readUInt16BE(i)`. -/
def readUInt16BE (bl : List Nat) (i : Nat) : Option Nat := do
  let a ← bl[i]?
  let b ← bl[i + 1]?
  pure (a * 256 + b)

/-- `bl.readUInt32BE(i)`. -/
def readUInt32BE (bl : List Nat) (i : Nat) : Option Nat := do
  let a ← bl[i]?
  let b ← bl[i + 1]?
  let c ← bl[i + 2]?
  let d ← bl[i + 3]?
  pure (a * 16777216 + b * 65536 + c * 256 + d)

/-- The per-flag booleans of `_packet.flags`, keyed exactly like `flagMasks`
(subunit-stream.js lines 34-43). -/
structure Flags where
  testId : Bool := false
  routeCode : Bool := false
  timestamp : Bool := false
  runnable : Bool := false
  tags : Bool := false
  mimeType : Bool := false
  eof : Bool := false
  fileContent : Bool := false
deriving DecidableEq, Repr

/-- The `_packet` metadata object the decoder attaches to each record. -/
structure Packet where
  length : Nat
  flags : Flags
deriving DecidableEq, Repr

/-- A decoded/encodable record.  JS `undefined` fields are `none`; JS strings
are scalar-value lists; `timestamp` is the `Date`'s epoch-millisecond value
(the verified properties only involve non-negative dates). -/
structure Record where
  status : Option String := none
  timestamp : Option Nat := none
  testId : Option (List Nat) := none
  tags : Option (List (List Nat)) := none
  mimeType : Option (List Nat) := none
  fileName : Option (List Nat) := none
  fileContent : Option (List Nat) := none
  routeCode : Option (List Nat) := none
  _packet : Option Packet := none
deriving DecidableEq, Repr

/-- `statusFlags[code]` (subunit-stream.js lines 23-32): code 0 is the JS
`null` status, modelled as `none`. -/
def statusOfCode (c : Nat) : Option String :=
  if c = 1 then some "exists"
  else if c = 2 then some "inprogress"
  else if c = 3 then some "success"
  else if c = 4 then some "uxsuccess"
  else if c = 5 then some "skip"
  else if c = 6 then some "fail"
  else if c = 7 then some "xfail"
  else none

/-- The encoder's reverse lookup
`Object.keys(statusFlags).find(k => statusFlags[k] === chunk.status)`
(lines 242-245): a `null`/`undefined`/unrecognised status finds no key whose
value matches a string, and OR-ing the resulting `undefined` contributes no
bits, hence code 0. -/
def statusCode : Option String → Nat
  | none => 0
  | some v =>
    if v = "exists" then 1
    else if v = "inprogress" then 2
    else if v = "success" then 3
    else if v = "uxsuccess" then 4
    else if v = "skip" then 5
    else if v = "fail" then 6
    else if v = "xfail" then 7
    else 0

/-- The decoder's per-flag test `(flags & flagMasks[flag]) !== 0`
(lines 146-148). -/
def flagsOf (flags : Nat) : Flags where
  testId := Nat.land flags 0x0800 ≠ 0
  routeCode := Nat.land flags 0x0400 ≠ 0
  timestamp := Nat.land flags 0x0200 ≠ 0
  runnable := Nat.land flags 0x0100 ≠ 0
  tags := Nat.land flags 0x0080 ≠ 0
  mimeType := Nat.land flags 0x0020 ≠ 0
  eof := Nat.land flags 0x0010 ≠ 0
  fileContent := Nat.land flags 0x0040 ≠ 0

/-! ## Decoder (`SubunitToObjectStream`, lines 109-222)

The per-packet parse of `_transform` is split into one function per optional
field, each taking and returning the record under construction together with
`optionalsOffset`; the stages are chained in the fixed wire order.  All JS
reads that can throw `RangeError` return `Option`. -/

/-- Lines 152-161: 4-byte big-endian seconds, varint nanoseconds,
`new Date(seconds*1000 + nanos/1_000_000)` (exact for the whole-millisecond
nanosecond values this codec writes and reads). -/
def parseTimestamp (bl : List Nat) (gate : Bool) (st : Record × Nat) :
    Option (Record × Nat) :=
  if gate then do
    let seconds ← readUInt32BE bl st.2
    let (nl, nv) ← readVarInt bl (st.2 + 4)
    pure ({ st.1 with timestamp := some (seconds * 1000 + nv / 1000000) },
          st.2 + 4 + nl)
  else some st

/-- Lines 163-167. -/
def parseTestId (bl : List Nat) (gate : Bool) (st : Record × Nat) :
    Option (Record × Nat) :=
  if gate then do
    let (l, v) ← readUtf8 bl st.2
    pure ({ st.1 with testId := some v }, st.2 + l)
  else some st

/-- The `for (var i = 0; i < count.value; i++)` tag loop of lines 173-179. -/
def readTags (bl : List Nat) : Nat → Nat → Option (List (List Nat) × Nat)
  | _, 0 => some ([], 0)
  | o, n + 1 => do
    let (l, t) ← readUtf8 bl o
    let (rest, consumed) ← readTags bl (o + l) n
    pure (t :: rest, l + consumed)

/-- Lines 169-181. -/
def parseTags (bl : List Nat) (gate : Bool) (st : Record × Nat) :
    Option (Record × Nat) :=
  if gate then do
    let (cl, count) ← readVarInt bl st.2
    let (tags, consumed) ← readTags bl (st.2 + cl) count
    pure ({ st.1 with tags := some tags }, st.2 + cl + consumed)
  else some st

/-- Lines 183-187. -/
def parseMimeType (bl : List Nat) (gate : Bool) (st : Record × Nat) :
    Option (Record × Nat) :=
  if gate then do
    let (l, v) ← readUtf8 bl st.2
    pure ({ st.1 with mimeType := some v }, st.2 + l)
  else some st

/-- Lines 189-199: file name string, varint byte count, then a *clamping*
`bl.slice` of the content bytes. -/
def parseFileContent (bl : List Nat) (gate : Bool) (st : Record × Nat) :
    Option (Record × Nat) :=
  if gate then do
    let (nl, name) ← readUtf8 bl st.2
    let (ll, flen) ← readVarInt bl (st.2 + nl)
    let content := (bl.drop (st.2 + nl + ll)).take flen
    pure ({ st.1 with fileName := some name, fileContent := some content },
          st.2 + nl + ll + flen)
  else some st

/-- Lines 201-205. -/
def parseRouteCode (bl : List Nat) (gate : Bool) (st : Record × Nat) :
    Option (Record × Nat) :=
  if gate then do
    let (l, v) ← readUtf8 bl st.2
    pure ({ st.1 with routeCode := some v }, st.2 + l)
  else some st

/-- One iteration of the `while` loop of `_transform` (lines 129-212).  The
result is the list of offsets at which `'Bad packet'` errors were emitted
(the emit happens after the three header reads, line 133-135) paired with
either `some (record, newOffset)` — the record pushed and
`offset + packetLength.value` — or `none`, a `RangeError` that aborts the
loop.  The checksum is never read (line 207). -/
def decodeStep (bl : List Nat) (offset : Nat) :
    List Nat × Option (Record × Nat) :=
  match readUInt8 bl offset, readUInt16BE bl (offset + 1),
        readVarInt bl (offset + 3) with
  | some sig, some flags, some (pl, pv) =>
    let errs := if sig = 0xB3 then [] else [offset]
    let fl := flagsOf flags
    let base : Record :=
      { status := statusOfCode (Nat.land flags 0x0007),
        _packet := some { length := pv, flags := fl } }
    let res : Option (Record × Nat) := do
      let st1 ← parseTimestamp bl fl.timestamp (base, offset + 3 + pl)
      let st2 ← parseTestId bl fl.testId st1
      let st3 ← parseTags bl fl.tags st2
      let st4 ← parseMimeType bl fl.mimeType st3
      let st5 ← parseFileContent bl fl.fileContent st4
      let st6 ← parseRouteCode bl fl.routeCode st5
      pure (st6.1, offset + pv)
    (errs, res)
  | _, _, _ => ([], none)

/-- The `while (this.offset < this.bl.length)` loop.  `fuel` bounds the
number of iterations (the JS loop can run forever on a zero-length packet;
every verified property terminates well within `bl.length + 1` iterations,
one packet consuming at least one byte).  Returns the pushed records, the
emitted error offsets and the final cursor. -/
def decodeLoop : Nat → List Nat → Nat → List Record × List Nat × Nat
  | 0, _, offset => ([], [], offset)
  | fuel + 1, bl, offset =>
    if offset < bl.length then
      match decodeStep bl offset with
      | (errs, none) => ([], errs, offset)
      | (errs, some (rec, off')) =>
        let (recs, errs2, offFinal) := decodeLoop fuel bl off'
        (rec :: recs, errs ++ errs2, offFinal)
    else ([], [], offset)

/-- The decoder's per-instance state: the append-only BufferList and the
cursor (`this.bl`, `this.offset`). -/
structure DecState where
  bl : List Nat := []
  offset : Nat := 0
deriving DecidableEq, Repr

/-- `SubunitToObjectStream.prototype._transform(chunk)`: append the chunk,
run the parse loop, return the new state, the pushed records and the emitted
error offsets. -/
def subunitTransform (st : DecState) (chunk : List Nat) :
    DecState × List Record × List Nat :=
  let bl := st.bl ++ chunk
  let (recs, errs, off') := decodeLoop (bl.length + 1) bl st.offset
  (⟨bl, off'⟩, recs, errs)

/-! ## Encoder (`ObjectToSubunitStream`, lines 224-333) -/

/-- The nanosecond remainder the encoder derives from the `Date`
(lines 262-264): `(millis - Math.floor(millis/1000)*1000) * 1000000`. -/
def encNanos (millis : Nat) : Nat :=
  (millis - millis / 1000 * 1000) * 1000000

/-- The flag word the encoder accumulates: version marker, status code,
`runnable`/`eof` taken from caller metadata, and one bit per present field
(the JS interleaves these `|=` with the body pushes; `|` is commutative and
associative so accumulating them in one place yields the same word). -/
def encodeFlags (chunk : Record) : Nat :=
  let f := Nat.lor 0x2000 (statusCode chunk.status)
  let f := match chunk._packet with
    | some p =>
      let f := if p.flags.runnable then Nat.lor f 0x0100 else f
      if p.flags.eof then Nat.lor f 0x0010 else f
    | none => f
  let f := if chunk.timestamp.isSome then Nat.lor f 0x0200 else f
  let f := if chunk.testId.isSome then Nat.lor f 0x0800 else f
  let f := if chunk.tags.isSome then Nat.lor f 0x0080 else f
  let f := if chunk.mimeType.isSome then Nat.lor f 0x0020 else f
  let f := if chunk.fileName.isSome && chunk.fileContent.isSome
           then Nat.lor f 0x0040 else f
  if chunk.routeCode.isSome then Nat.lor f 0x0400 else f

/-- The concatenated `body` buffers (lines 258-306), in the fixed push
order: timestamp, testId, tags, mimeType, fileName+fileContent (only when
*both* are defined, line 292-293), routeCode. -/
def encodeBody (chunk : Record) : Option (List Nat) := do
  let tsB ← match chunk.timestamp with
    | none => some []
    | some millis => do
      let varNanos ← writeVarIntN (encNanos millis)
      let secB ← writeUInt32BE (millis / 1000)
      pure (secB ++ varNanos)
  let tidB ← match chunk.testId with
    | none => some []
    | some s => writeUtf8 s
  let tagB ← match chunk.tags with
    | none => some []
    | some ts => do
      let cnt ← writeVarIntN ts.length
      let body ← ts.foldlM (fun acc t => do
        let w ← writeUtf8 t
        pure (acc ++ w)) []
      pure (cnt ++ body)
  let mimeB ← match chunk.mimeType with
    | none => some []
    | some s => writeUtf8 s
  let fileB ← match chunk.fileName, chunk.fileContent with
    | some name, some content => do
      let nB ← writeUtf8 name
      let lB ← writeVarIntN content.length
      pure (nB ++ lB ++ content)
    | _, _ => some []
  let routeB ← match chunk.routeCode with
    | none => some []
    | some s => writeUtf8 s
  pure (tsB ++ tidB ++ tagB ++ mimeB ++ fileB ++ routeB)

/-- The encoder's resolution of the length-field size/value circularity
(lines 311-321): the varint size class that will hold `baseLength` plus the
length field itself; `none` models the `'Length too long'` throw. -/
def lengthLengthOf (baseLength : Nat) : Option Nat :=
  if baseLength ≤ 62 then some 1
  else if baseLength ≤ 16381 then some 2
  else if baseLength ≤ 4194300 then some 3
  else none

/-- `ObjectToSubunitStream.prototype._transform(chunk)` (lines 237-333):
header, varint total length, body, CRC-32 over everything before the
checksum.  `none` models the encoder throwing. -/
def encodeRecord (chunk : Record) : Option (List Nat) := do
  let body ← encodeBody chunk
  let baseLength := 3 + body.length + 4
  let lengthLength ← lengthLengthOf baseLength
  let flags := encodeFlags chunk
  let header := [0xB3, flags / 256, flags % 256]
  let lenB ← writeVarIntN (baseLength + lengthLength)
  let preCrc := header ++ lenB ++ body
  pure (preCrc ++ crc32Bytes preCrc)

end Subunit

namespace Subunit

/-! ## Lemmas about the primitive codecs -/

/-- Reading an index that falls inside the middle segment of an append. -/
theorem getElem?_pre (pre xs : List Nat) (i : Nat) :
    (pre ++ xs)[pre.length + i]? = xs[i]? := by
  rw [List.getElem?_append_right (by omega)]
  congr 1
  omega

/-- A scalar value of a well-formed JS string: any Unicode code point that is
not a surrogate. -/
def ScalarValue (c : Nat) : Prop := c < 55296 ∨ (57343 < c ∧ c < 1114112)

instance (c : Nat) : Decidable (ScalarValue c) := by
  unfold ScalarValue; infer_instance

/-- `writeVarIntN` succeeds exactly below `2^30`. -/
theorem writeVarIntN_isSome (v : Nat) (h : v < 1073741824) :
    ∃ w, writeVarIntN v = some w := by
  unfold writeVarIntN
  repeat' split
  all_goals exact ⟨_, rfl⟩

/-- Decoding a varint that `writeVarIntN` produced, embedded at any offset,
recovers the encoded value and the byte count. -/
theorem readVarInt_writeVarIntN (pre post w : List Nat) (v : Nat)
    (h : writeVarIntN v = some w) :
    readVarInt (pre ++ (w ++ post)) pre.length = some (w.length, v) := by
  unfold writeVarIntN at h
  split at h
  · cases h
    have e0 : (pre ++ v :: post)[pre.length]? = some v :=
      (getElem?_pre pre (v :: post) 0).trans (by simp)
    have ht : v / 64 = 0 := by omega
    simp only [List.cons_append, List.nil_append, readVarInt, e0,
      Option.bind_eq_bind, Option.some_bind, ht, if_pos rfl, ite_true,
      Option.pure_def, Option.some.injEq, Prod.mk.injEq, List.length_cons,
      List.length_nil, true_and]
    omega
  · split at h
    · cases h
      have e0 : (pre ++ (64 + v / 256) :: v % 256 :: post)[pre.length]? =
          some (64 + v / 256) :=
        (getElem?_pre pre ((64 + v / 256) :: v % 256 :: post) 0).trans (by simp)
      have e1 : (pre ++ (64 + v / 256) :: v % 256 :: post)[pre.length + 1]? =
          some (v % 256) :=
        (getElem?_pre pre ((64 + v / 256) :: v % 256 :: post) 1).trans (by simp)
      have ht : (64 + v / 256) / 64 = 1 := by omega
      simp only [List.cons_append, List.nil_append, readVarInt, e0, e1,
        Option.bind_eq_bind, Option.some_bind, ht,
        if_neg (by omega : ¬ (1:Nat) = 0), if_pos rfl, ite_true, true_and,
        Option.pure_def, Option.some.injEq, Prod.mk.injEq, List.length_cons,
        List.length_nil]
      omega
    · split at h
      · cases h
        have e0 : (pre ++ (128 + v / 65536) :: v / 256 % 256 :: v % 256 :: post)[pre.length]? =
            some (128 + v / 65536) :=
          (getElem?_pre pre ((128 + v / 65536) :: v / 256 % 256 :: v % 256 :: post) 0).trans
            (by simp)
        have e1 : (pre ++ (128 + v / 65536) :: v / 256 % 256 :: v % 256 :: post)[pre.length + 1]? =
            some (v / 256 % 256) :=
          (getElem?_pre pre ((128 + v / 65536) :: v / 256 % 256 :: v % 256 :: post) 1).trans
            (by simp)
        have e2 : (pre ++ (128 + v / 65536) :: v / 256 % 256 :: v % 256 :: post)[pre.length + 2]? =
            some (v % 256) :=
          (getElem?_pre pre ((128 + v / 65536) :: v / 256 % 256 :: v % 256 :: post) 2).trans
            (by simp)
        have ht : (128 + v / 65536) / 64 = 2 := by omega
        simp only [List.cons_append, List.nil_append, readVarInt, e0, e1, e2,
          Option.bind_eq_bind, Option.some_bind, ht,
          if_neg (by omega : ¬ (2:Nat) = 0), if_neg (by omega : ¬ (2:Nat) = 1),
          if_pos rfl, ite_true, true_and, Option.pure_def, Option.some.injEq,
          Prod.mk.injEq, List.length_cons, List.length_nil]
        omega
      · split at h
        · cases h
          have e0 : (pre ++ (192 + v / 16777216) :: v / 65536 % 256 :: v / 256 % 256 :: v % 256 :: post)[pre.length]? =
              some (192 + v / 16777216) :=
            (getElem?_pre pre ((192 + v / 16777216) :: v / 65536 % 256 :: v / 256 % 256 :: v % 256 :: post) 0).trans
              (by simp)
          have e1 : (pre ++ (192 + v / 16777216) :: v / 65536 % 256 :: v / 256 % 256 :: v % 256 :: post)[pre.length + 1]? =
              some (v / 65536 % 256) :=
            (getElem?_pre pre ((192 + v / 16777216) :: v / 65536 % 256 :: v / 256 % 256 :: v % 256 :: post) 1).trans
              (by simp)
          have e2 : (pre ++ (192 + v / 16777216) :: v / 65536 % 256 :: v / 256 % 256 :: v % 256 :: post)[pre.length + 2]? =
              some (v / 256 % 256) :=
            (getElem?_pre pre ((192 + v / 16777216) :: v / 65536 % 256 :: v / 256 % 256 :: v % 256 :: post) 2).trans
              (by simp)
          have e3 : (pre ++ (192 + v / 16777216) :: v / 65536 % 256 :: v / 256 % 256 :: v % 256 :: post)[pre.length + 3]? =
              some (v % 256) :=
            (getElem?_pre pre ((192 + v / 16777216) :: v / 65536 % 256 :: v / 256 % 256 :: v % 256 :: post) 3).trans
              (by simp)
          have ht : (192 + v / 16777216) / 64 = 3 := by omega
          simp only [List.cons_append, List.nil_append, readVarInt, e0, e1, e2, e3,
            Option.bind_eq_bind, Option.some_bind, ht,
            if_neg (by omega : ¬ (3:Nat) = 0), if_neg (by omega : ¬ (3:Nat) = 1),
            if_neg (by omega : ¬ (3:Nat) = 2), true_and, Option.pure_def,
            Option.some.injEq, Prod.mk.injEq, List.length_cons, List.length_nil]
          omega
        · exact Option.noConfusion h

theorem utf8Decode_cons (b : Nat) (rest : List Nat) :
    utf8Decode (b :: rest) =
      (utf8DecodeOne b rest).1 :: utf8Decode (utf8DecodeOne b rest).2 := by
  show (utf8DecodeOne b rest).1 :: utf8DecodeFuel rest.length (utf8DecodeOne b rest).2 =
    (utf8DecodeOne b rest).1 :: utf8Decode (utf8DecodeOne b rest).2
  rw [utf8DecodeFuel_stable rest.length (utf8DecodeOne b rest).2.length _
    (utf8DecodeOne_length b rest) (le_refl _)]
  rfl

theorem utf8Decode_encodeCp (c : Nat) (h : c < 1114112) (rest : List Nat) :
    utf8Decode (utf8EncodeCp c ++ rest) = c :: utf8Decode rest := by
  unfold utf8EncodeCp
  split
  · rw [List.cons_append, List.nil_append, utf8Decode_cons]
    unfold utf8DecodeOne
    rw [if_pos (by omega)]
  · split
    · simp only [List.cons_append, List.nil_append]
      rw [utf8Decode_cons]
      unfold utf8DecodeOne
      rw [if_neg (by omega), if_neg (by omega), if_pos (by omega),
        if_neg (by simp)]
      simp only [List.getD_cons_zero, List.drop_succ_cons, List.drop_zero]
      rw [List.cons.injEq]
      exact ⟨by omega, rfl⟩
    · split
      · simp only [List.cons_append, List.nil_append]
        rw [utf8Decode_cons]
        unfold utf8DecodeOne
        rw [if_neg (by omega), if_neg (by omega), if_neg (by omega),
          if_pos (by omega), if_neg (by simp)]
        simp only [List.getD_cons_zero, List.getD_cons_succ,
          List.drop_succ_cons, List.drop_zero]
        rw [List.cons.injEq]
        exact ⟨by omega, rfl⟩
      · simp only [List.cons_append, List.nil_append]
        rw [utf8Decode_cons]
        unfold utf8DecodeOne
        rw [if_neg (by omega), if_neg (by omega), if_neg (by omega),
          if_neg (by omega), if_neg (by simp)]
        simp only [List.getD_cons_zero, List.getD_cons_succ,
          List.drop_succ_cons, List.drop_zero]
        rw [List.cons.injEq]
        exact ⟨by omega, rfl⟩

/-- Round trip of the UTF-8 model on any list of code points below 0x110000
(in particular on any well-formed JS string). -/
theorem utf8Decode_utf8Encode (s : List Nat) (h : ∀ c ∈ s, c < 1114112) :
    utf8Decode (utf8Encode s) = s := by
  induction s with
  | nil => rfl
  | cons c s ih =>
    have hc : c < 1114112 := h c (by simp)
    have hs : ∀ x ∈ s, x < 1114112 := fun x hx => h x (by simp [hx])
    show utf8Decode ((utf8EncodeCp c :: s.map utf8EncodeCp).flatten) = c :: s
    rw [List.flatten_cons]
    rw [utf8Decode_encodeCp c hc]
    rw [show (List.map utf8EncodeCp s).flatten = utf8Encode s from rfl, ih hs]

theorem utf8Encode_cons (c : Nat) (s : List Nat) :
    utf8Encode (c :: s) = utf8EncodeCp c ++ utf8Encode s := by
  simp [utf8Encode]

/-- Reading back a `writeUtf8`-encoded string embedded at any offset returns
the string and the prefix-plus-payload byte count. -/
theorem readUtf8_writeUtf8 (pre post w s : List Nat)
    (hs : ∀ c ∈ s, c < 1114112) (h : writeUtf8 s = some w) :
    readUtf8 (pre ++ (w ++ post)) pre.length = some (w.length, s) := by
  unfold writeUtf8 at h
  obtain ⟨num, hnum, rfl⟩ :
      ∃ num, writeVarIntN (utf8Encode s).length = some num ∧
        num ++ utf8Encode s = w := by
    cases hw : writeVarIntN (utf8Encode s).length with
    | none => rw [hw] at h; exact Option.noConfusion h
    | some num =>
      rw [hw] at h
      exact ⟨num, rfl, by simpa using h⟩
  have hread : readVarInt (pre ++ ((num ++ utf8Encode s) ++ post)) pre.length =
      some (num.length, (utf8Encode s).length) := by
    have := readVarInt_writeVarIntN pre (utf8Encode s ++ post) num
      (utf8Encode s).length hnum
    simpa [List.append_assoc] using this
  have hdrop : (pre ++ ((num ++ utf8Encode s) ++ post)).drop (pre.length + num.length) =
      utf8Encode s ++ post := by
    have : pre ++ ((num ++ utf8Encode s) ++ post) =
        (pre ++ num) ++ (utf8Encode s ++ post) := by simp [List.append_assoc]
    rw [this, show pre.length + num.length = (pre ++ num).length by simp,
      List.drop_left]
  unfold readUtf8
  rw [hread]
  simp only [Option.bind_eq_bind, Option.some_bind]
  rw [hdrop, List.take_left]
  rw [utf8Decode_utf8Encode s hs]
  simp

/-- Reading back a 4-byte big-endian 32-bit value embedded at any offset. -/
theorem readUInt32BE_writeUInt32BE (pre post w : List Nat) (v : Nat)
    (h : writeUInt32BE v = some w) :
    readUInt32BE (pre ++ (w ++ post)) pre.length = some v := by
  unfold writeUInt32BE at h
  split at h
  · cases h
    have e0 : (pre ++ (v / 16777216 % 256) :: (v / 65536 % 256) :: (v / 256 % 256) :: (v % 256) :: post)[pre.length]? =
        some (v / 16777216 % 256) :=
      (getElem?_pre pre ((v / 16777216 % 256) :: (v / 65536 % 256) :: (v / 256 % 256) :: (v % 256) :: post) 0).trans
        (by simp)
    have e1 : (pre ++ (v / 16777216 % 256) :: (v / 65536 % 256) :: (v / 256 % 256) :: (v % 256) :: post)[pre.length + 1]? =
        some (v / 65536 % 256) :=
      (getElem?_pre pre ((v / 16777216 % 256) :: (v / 65536 % 256) :: (v / 256 % 256) :: (v % 256) :: post) 1).trans
        (by simp)
    have e2 : (pre ++ (v / 16777216 % 256) :: (v / 65536 % 256) :: (v / 256 % 256) :: (v % 256) :: post)[pre.length + 2]? =
        some (v / 256 % 256) :=
      (getElem?_pre pre ((v / 16777216 % 256) :: (v / 65536 % 256) :: (v / 256 % 256) :: (v % 256) :: post) 2).trans
        (by simp)
    have e3 : (pre ++ (v / 16777216 % 256) :: (v / 65536 % 256) :: (v / 256 % 256) :: (v % 256) :: post)[pre.length + 3]? =
        some (v % 256) :=
      (getElem?_pre pre ((v / 16777216 % 256) :: (v / 65536 % 256) :: (v / 256 % 256) :: (v % 256) :: post) 3).trans
        (by simp)
    simp only [List.cons_append, List.nil_append, readUInt32BE, e0, e1, e2, e3,
      Option.bind_eq_bind, Option.some_bind, Option.pure_def, Option.some.injEq]
    omega
  · exact Option.noConfusion h

/-- C5: varint round trip, size classes and domain errors.  Stated over `Int`
inputs so that the negative domain error is expressible. -/
theorem varint_roundtrip_c5 (n : Int) :
    (0 ≤ n → n ≤ 1073741823 →
      ∃ w, writeVarInt n = some w ∧ readVarInt w 0 = some (w.length, n.toNat) ∧
        w.length = (if n ≤ 63 then 1 else if n ≤ 16383 then 2
                    else if n ≤ 4194303 then 3 else 4))
    ∧ (n < 0 → writeVarInt n = none)
    ∧ (1073741824 ≤ n → writeVarInt n = none) := by
  refine ⟨?_, ?_, ?_⟩
  · intro h0 h1
    obtain ⟨w, hw⟩ := writeVarIntN_isSome n.toNat (by omega)
    refine ⟨w, ?_, ?_, ?_⟩
    · rw [writeVarInt, if_neg (by omega)]
      exact hw
    · simpa using readVarInt_writeVarIntN [] [] w n.toNat hw
    · unfold writeVarIntN at hw
      split at hw
      · cases hw
        rw [if_pos (by omega)]
        rfl
      · split at hw
        · cases hw
          rw [if_neg (by omega), if_pos (by omega)]
          rfl
        · split at hw
          · cases hw
            rw [if_neg (by omega), if_neg (by omega), if_pos (by omega)]
            rfl
          · split at hw
            · cases hw
              rw [if_neg (by omega), if_neg (by omega), if_neg (by omega)]
              rfl
            · exact Option.noConfusion hw
  · intro h
    rw [writeVarInt, if_pos h]
  · intro h
    rw [writeVarInt, if_neg (by omega)]
    unfold writeVarIntN
    rw [if_neg (by omega), if_neg (by omega), if_neg (by omega), if_neg (by omega)]

theorem varint_roundtrip_c5_witness :
    (∃ w, writeVarInt 16384 = some w ∧ readVarInt w 0 = some (w.length, 16384) ∧
      w.length = 3)
    ∧ writeVarInt (-1) = none ∧ writeVarInt 1073741824 = none := by
  refine ⟨?_, (varint_roundtrip_c5 (-1)).2.1 (by decide),
    (varint_roundtrip_c5 1073741824).2.2 (by decide)⟩
  have h := (varint_roundtrip_c5 16384).1 (by decide) (by decide)
  simpa using h

/-- C6: length-prefixed UTF-8 string round trip; the reported consumed length
is the varint prefix length plus the UTF-8 *byte* length; the empty string is
a single zero byte. -/
theorem utf8_roundtrip_c6 :
    (∀ s : List Nat, (∀ c ∈ s, ScalarValue c) →
      (utf8Encode s).length < 1073741824 →
      ∃ w num, writeVarIntN (utf8Encode s).length = some num ∧
        writeUtf8 s = some w ∧
        readUtf8 w 0 = some (num.length + (utf8Encode s).length, s) ∧
        w.length = num.length + (utf8Encode s).length)
    ∧ writeUtf8 [] = some [0] := by
  constructor
  · intro s hs hlen
    have hs' : ∀ c ∈ s, c < 1114112 := by
      intro c hc
      rcases hs c hc with h | h
      · omega
      · omega
    obtain ⟨num, hnum⟩ := writeVarIntN_isSome (utf8Encode s).length hlen
    have hw : writeUtf8 s = some (num ++ utf8Encode s) := by
      unfold writeUtf8
      rw [hnum]
      rfl
    refine ⟨num ++ utf8Encode s, num, hnum, hw, ?_, by simp⟩
    have := readUtf8_writeUtf8 [] [] (num ++ utf8Encode s) s hs' hw
    simpa using this
  · rfl

theorem utf8_roundtrip_c6_witness :
    ∃ w num, writeVarIntN (utf8Encode [97, 20013]).length = some num ∧
      writeUtf8 [97, 20013] = some w ∧
      readUtf8 w 0 = some (num.length + (utf8Encode [97, 20013]).length, [97, 20013]) ∧
      w.length = num.length + (utf8Encode [97, 20013]).length :=
  utf8_roundtrip_c6.1 [97, 20013] (by decide) (by decide)

theorem land7_lor (a m : Nat) (hm : m % 8 = 0) :
    Nat.land (Nat.lor a m) 7 = Nat.land a 7 := by
  have h1 : Nat.land (Nat.lor a m) 7 = Nat.lor (Nat.land a 7) (Nat.land m 7) :=
    Nat.and_distrib_right a m 7
  have h2 : Nat.land m 7 = (m % 8 : Nat) := Nat.and_pow_two_sub_one_eq_mod m 3
  rw [h1, h2, hm]
  exact Nat.or_zero _

theorem land7_lor_left (m a : Nat) (hm : m % 8 = 0) :
    Nat.land (Nat.lor m a) 7 = Nat.land a 7 := by
  rw [show Nat.lor m a = Nat.lor a m from Nat.lor_comm m a]
  exact land7_lor a m hm

theorem land7_condLor (c : Prop) [Decidable c] (f m : Nat) (hm : m % 8 = 0) :
    Nat.land (if c then Nat.lor f m else f) 7 = Nat.land f 7 := by
  split
  · exact land7_lor f m hm
  · rfl

theorem statusCode_le (s : Option String) : statusCode s ≤ 7 := by
  unfold statusCode
  repeat' split
  all_goals omega

theorem encodeFlags_land7 (r : Record) :
    Nat.land (encodeFlags r) 7 = statusCode r.status := by
  have hsc : Nat.land (statusCode r.status) 7 = statusCode r.status := by
    have h : Nat.land (statusCode r.status) 7 = statusCode r.status % 8 :=
      Nat.and_pow_two_sub_one_eq_mod _ 3
    have := statusCode_le r.status
    omega
  simp only [encodeFlags]
  rw [land7_condLor _ _ 0x0400 (by norm_num), land7_condLor _ _ 0x0040 (by norm_num),
    land7_condLor _ _ 0x0020 (by norm_num), land7_condLor _ _ 0x0080 (by norm_num),
    land7_condLor _ _ 0x0800 (by norm_num), land7_condLor _ _ 0x0200 (by norm_num)]
  cases r._packet with
  | none =>
    exact (land7_lor_left _ _ (by norm_num)).trans hsc
  | some p =>
    simp only []
    rw [land7_condLor _ _ 0x0010 (by norm_num), land7_condLor _ _ 0x0100 (by norm_num)]
    exact (land7_lor_left _ _ (by norm_num)).trans hsc

/-- C10: the nanosecond remainder the encoder derives is
`(millis mod 1000) * 1e6`, a multiple of 1e6 within [0, 999e6], and the
`writeVarInt` call on it always succeeds (never a domain or overflow
throw), within the largest (4-byte) varint class. -/
theorem timestamp_nanos_safe_c10 (m : Nat) :
    encNanos m = m % 1000 * 1000000
    ∧ encNanos m % 1000000 = 0
    ∧ encNanos m ≤ 999000000
    ∧ ∃ w, writeVarIntN (encNanos m) = some w ∧ w.length ≤ 4 := by
  have he : encNanos m = m % 1000 * 1000000 := by
    unfold encNanos
    omega
  refine ⟨he, by omega, by omega, ?_⟩
  obtain ⟨w, hw⟩ := writeVarIntN_isSome (encNanos m) (by omega)
  refine ⟨w, hw, ?_⟩
  unfold writeVarIntN at hw
  repeat' split at hw
  all_goals cases hw
  all_goals simp

/-- C8: status reverse-mapping.  Encoding `status="fail"` puts 6 in the low
three bits of the flag word; decoding the resulting packet yields
`status="fail"`; in general the low three bits of the encoder's flag word are
exactly the table code of the record's status, and an absent or unrecognised
status contributes no bits (code 0). -/
theorem status_mapping_c8 :
    Nat.land (encodeFlags { status := some "fail" }) 7 = 6
    ∧ statusOfCode 6 = some "fail"
    ∧ ((decodeStep ((encodeRecord { status := some "fail" }).getD []) 0).2.map
        (fun x => x.1.status) = some (some "fail"))
    ∧ (∀ r : Record, Nat.land (encodeFlags r) 7 = statusCode r.status)
    ∧ (∀ s : String,
        s ∉ (["exists", "inprogress", "success", "uxsuccess", "skip", "fail",
              "xfail"] : List String) →
        statusCode (some s) = 0) := by
  refine ⟨by decide, by decide, by decide, encodeFlags_land7, ?_⟩
  intro s hs
  simp only [List.mem_cons, List.mem_singleton, not_or] at hs
  obtain ⟨h1, h2, h3, h4, h5, h6, h7, _⟩ := hs
  simp only [statusCode]
  rw [if_neg h1, if_neg h2, if_neg h3, if_neg h4, if_neg h5, if_neg h6, if_neg h7]

theorem status_mapping_c8_witness : statusCode (some "bogus") = 0 :=
  status_mapping_c8.2.2.2.2 "bogus" (by decide)

theorem parseTimestamp_file (bl : List Nat) (gate : Bool) (st st' : Record × Nat)
    (h : parseTimestamp bl gate st = some st') :
    st'.1.fileName = st.1.fileName ∧ st'.1.fileContent = st.1.fileContent := by
  unfold parseTimestamp at h
  split at h
  · simp only [Option.bind_eq_bind, Option.bind_eq_some, Option.pure_def,
      Option.some.injEq] at h
    obtain ⟨sec, hsec, ⟨nl, nv⟩, hnv, h⟩ := h
    rw [← h]
    exact ⟨rfl, rfl⟩
  · cases h
    exact ⟨rfl, rfl⟩

theorem parseTestId_file (bl : List Nat) (gate : Bool) (st st' : Record × Nat)
    (h : parseTestId bl gate st = some st') :
    st'.1.fileName = st.1.fileName ∧ st'.1.fileContent = st.1.fileContent := by
  unfold parseTestId at h
  split at h
  · simp only [Option.bind_eq_bind, Option.bind_eq_some, Option.pure_def,
      Option.some.injEq] at h
    obtain ⟨⟨l, v⟩, hr, h⟩ := h
    rw [← h]
    exact ⟨rfl, rfl⟩
  · cases h
    exact ⟨rfl, rfl⟩

theorem parseTags_file (bl : List Nat) (gate : Bool) (st st' : Record × Nat)
    (h : parseTags bl gate st = some st') :
    st'.1.fileName = st.1.fileName ∧ st'.1.fileContent = st.1.fileContent := by
  unfold parseTags at h
  split at h
  · simp only [Option.bind_eq_bind, Option.bind_eq_some, Option.pure_def,
      Option.some.injEq] at h
    obtain ⟨⟨cl, count⟩, hc, ⟨tags, consumed⟩, ht, h⟩ := h
    rw [← h]
    exact ⟨rfl, rfl⟩
  · cases h
    exact ⟨rfl, rfl⟩

theorem parseMimeType_file (bl : List Nat) (gate : Bool) (st st' : Record × Nat)
    (h : parseMimeType bl gate st = some st') :
    st'.1.fileName = st.1.fileName ∧ st'.1.fileContent = st.1.fileContent := by
  unfold parseMimeType at h
  split at h
  · simp only [Option.bind_eq_bind, Option.bind_eq_some, Option.pure_def,
      Option.some.injEq] at h
    obtain ⟨⟨l, v⟩, hr, h⟩ := h
    rw [← h]
    exact ⟨rfl, rfl⟩
  · cases h
    exact ⟨rfl, rfl⟩

theorem parseRouteCode_file (bl : List Nat) (gate : Bool) (st st' : Record × Nat)
    (h : parseRouteCode bl gate st = some st') :
    st'.1.fileName = st.1.fileName ∧ st'.1.fileContent = st.1.fileContent := by
  unfold parseRouteCode at h
  split at h
  · simp only [Option.bind_eq_bind, Option.bind_eq_some, Option.pure_def,
      Option.some.injEq] at h
    obtain ⟨⟨l, v⟩, hr, h⟩ := h
    rw [← h]
    exact ⟨rfl, rfl⟩
  · cases h
    exact ⟨rfl, rfl⟩

theorem parseFileContent_file (bl : List Nat) (gate : Bool) (st st' : Record × Nat)
    (h : parseFileContent bl gate st = some st')
    (hst : st.1.fileName.isSome ↔ st.1.fileContent.isSome) :
    st'.1.fileName.isSome ↔ st'.1.fileContent.isSome := by
  unfold parseFileContent at h
  split at h
  · simp only [Option.bind_eq_bind, Option.bind_eq_some, Option.pure_def,
      Option.some.injEq] at h
    obtain ⟨⟨nl, name⟩, hn, ⟨ll, flen⟩, hl, h⟩ := h
    rw [← h]
    simp
  · cases h
    exact hst

/-- Every record the decoder emits has `fileName` set iff `fileContent` is
set: both come from the single shared flag bit. -/
theorem decodeStep_file_pairing (bl : List Nat) (offset : Nat) (errs : List Nat)
    (rec : Record) (off' : Nat)
    (h : decodeStep bl offset = (errs, some (rec, off'))) :
    rec.fileName.isSome ↔ rec.fileContent.isSome := by
  unfold decodeStep at h
  split at h
  case _ sig flags pl pv heq1 heq2 heq3 =>
    simp only [Prod.mk.injEq] at h
    obtain ⟨-, h⟩ := h
    simp only [Option.bind_eq_bind, Option.bind_eq_some, Option.pure_def,
      Option.some.injEq] at h
    obtain ⟨st1, h1, st2, h2, st3, h3, st4, h4, st5, h5, st6, h6, h⟩ := h
    obtain ⟨hrec, -⟩ : st6.1 = rec ∧ offset + pv = off' := Prod.mk.injEq .. ▸ h
    have q1 := parseTimestamp_file _ _ _ _ h1
    have q2 := parseTestId_file _ _ _ _ h2
    have q3 := parseTags_file _ _ _ _ h3
    have q4 := parseMimeType_file _ _ _ _ h4
    have q6 := parseRouteCode_file _ _ _ _ h6
    have p5 : st5.1.fileName.isSome ↔ st5.1.fileContent.isSome := by
      apply parseFileContent_file _ _ _ _ h5
      rw [q4.1, q4.2, q3.1, q3.2, q2.1, q2.2, q1.1, q1.2]
    rw [← hrec, q6.1, q6.2]
    exact p5
  case _ =>
    simp only [Prod.mk.injEq] at h
    exact absurd h.2 (by simp)

/-- C9: fileContent/fileName stay paired.  Encoding a record with only one of
the two set behaves exactly as if both were absent (no flag bit, no file
fields), and every decoded record has `fileName` set iff `fileContent` is
set. -/
theorem file_pairing_c9 :
    (∀ r : Record, r.fileName = none ∨ r.fileContent = none →
      encodeRecord r =
        encodeRecord { r with fileName := none, fileContent := none })
    ∧ (∀ (bl : List Nat) (offset : Nat) (errs : List Nat) (rec : Record)
        (off' : Nat), decodeStep bl offset = (errs, some (rec, off')) →
        (rec.fileName.isSome ↔ rec.fileContent.isSome)) := by
  constructor
  · intro r h
    obtain ⟨st, ts, tid, tg, mi, fn, fc, rc, pk⟩ := r
    simp only [] at h
    rcases h with h | h
    · subst h
      rcases fc with _ | c
      · rfl
      · rfl
    · subst h
      rcases fn with _ | n
      · rfl
      · rfl
  · exact decodeStep_file_pairing

theorem file_pairing_c9_witness :
    (encodeRecord { fileName := some [97] } =
      encodeRecord { ({ fileName := some [97] } : Record) with
                     fileName := none, fileContent := none })
    ∧ (({ testId := some [84, 49],
          _packet := some { length := 11, flags := { testId := true } } } :
          Record).fileName.isSome ↔
       ({ testId := some [84, 49],
          _packet := some { length := 11, flags := { testId := true } } } :
          Record).fileContent.isSome) := by
  constructor
  · exact file_pairing_c9.1 { fileName := some [97] } (Or.inr rfl)
  · exact file_pairing_c9.2 ((encodeRecord { testId := some [84, 49] }).getD [])
      0 [] _ 11 (by decide)

theorem crc32Bytes_length (l : List Nat) : (crc32Bytes l).length = 4 := rfl

/-- C4 counterexample: for the minimal packet the length field holds the
*full* packet size (8), not the size minus the 3 signature/flag bytes (5),
and the decoder advances by the declared value alone, not by the declared
value plus 3. -/
theorem packet_length_c4_counterexample :
    ((encodeRecord {}).getD []).length = 8
    ∧ readVarInt ((encodeRecord {}).getD []) 3 = some (1, 8)
    ∧ (readVarInt ((encodeRecord {}).getD []) 3).map Prod.snd ≠
        some (((encodeRecord {}).getD []).length - 3)
    ∧ (decodeStep ((encodeRecord {}).getD []) 0).2.map Prod.snd ≠
        some (0 + 8 + 3) := by
  decide

/-- C4 (amended): the varint length field written at offset 3 holds the full
packet length, signature and flag bytes included, and after a successful
parse the decoder advances its cursor by exactly the declared value. -/
theorem packet_length_c4 :
    (∀ (r : Record) (P : List Nat), encodeRecord r = some P →
      ∃ L, readVarInt P 3 = some (L, P.length))
    ∧ (∀ (bl : List Nat) (offset : Nat) (errs : List Nat) (rec : Record)
        (off' : Nat), decodeStep bl offset = (errs, some (rec, off')) →
        ∃ L V, readVarInt bl (offset + 3) = some (L, V) ∧ off' = offset + V) := by
  constructor
  · intro r P hP
    unfold encodeRecord at hP
    simp only [Option.bind_eq_bind, Option.bind_eq_some, Option.pure_def,
      Option.some.injEq] at hP
    obtain ⟨body, hbody, ll, hll, lenB, hlenB, hP⟩ := hP
    have hlen : lenB.length = ll := by
      unfold lengthLengthOf at hll
      split at hll
      · cases hll
        unfold writeVarIntN at hlenB
        rw [if_pos (by omega)] at hlenB
        cases hlenB
        rfl
      · split at hll
        · cases hll
          unfold writeVarIntN at hlenB
          rw [if_neg (by omega), if_pos (by omega)] at hlenB
          cases hlenB
          rfl
        · split at hll
          · cases hll
            unfold writeVarIntN at hlenB
            rw [if_neg (by omega), if_neg (by omega), if_pos (by omega)] at hlenB
            cases hlenB
            rfl
          · exact Option.noConfusion hll
    subst hP
    have hread := readVarInt_writeVarIntN
      [0xB3, encodeFlags r / 256, encodeFlags r % 256]
      (body ++ crc32Bytes ([0xB3, encodeFlags r / 256, encodeFlags r % 256] ++ lenB ++ body))
      lenB (3 + body.length + 4 + ll) hlenB
    refine ⟨lenB.length, ?_⟩
    have heq : ([0xB3, encodeFlags r / 256, encodeFlags r % 256] ++ lenB ++ body) ++
        crc32Bytes ([0xB3, encodeFlags r / 256, encodeFlags r % 256] ++ lenB ++ body) =
        [0xB3, encodeFlags r / 256, encodeFlags r % 256] ++
          (lenB ++ (body ++ crc32Bytes ([0xB3, encodeFlags r / 256, encodeFlags r % 256] ++ lenB ++ body))) := by
      simp [List.append_assoc]
    rw [heq]
    have h3 : ([0xB3, encodeFlags r / 256, encodeFlags r % 256] : List Nat).length = 3 := rfl
    rw [← h3]
    rw [hread]
    congr 1
    simp [crc32Bytes_length]
    omega
  · intro bl offset errs rec off' h
    unfold decodeStep at h
    split at h
    case _ sig flags pl pv heq1 heq2 heq3 =>
      simp only [Prod.mk.injEq] at h
      obtain ⟨-, h⟩ := h
      simp only [Option.bind_eq_bind, Option.bind_eq_some, Option.pure_def,
        Option.some.injEq] at h
      obtain ⟨st1, h1, st2, h2, st3, h3, st4, h4, st5, h5, st6, h6, h⟩ := h
      obtain ⟨-, hoff⟩ : st6.1 = rec ∧ offset + pv = off' := Prod.mk.injEq .. ▸ h
      exact ⟨pl, pv, heq3, hoff.symm⟩
    case _ =>
      simp only [Prod.mk.injEq] at h
      exact absurd h.2 (by simp)

theorem packet_length_c4_witness :
    ∃ L, readVarInt ((encodeRecord {}).getD []) 3 =
      some (L, ((encodeRecord {}).getD []).length) :=
  packet_length_c4.1 {} ((encodeRecord {}).getD []) (by decide)

/-- C3 is violated by the code: feeding only the first 5 of the 11 bytes of
the packet for `{testId:"T1"}` (the buffer ends inside the string payload,
whose `slice` clamps instead of throwing) makes `_transform` push a record
with a *truncated* `testId` of `""` and advance the cursor to 11. -/
theorem truncated_packet_c3 :
    ((encodeRecord { testId := some [84, 49] }).getD []).length = 11
    ∧ ((encodeRecord { testId := some [84, 49] }).getD []).take 5 =
        [0xB3, 0x28, 0x00, 0x0B, 0x02]
    ∧ subunitTransform {}
        (((encodeRecord { testId := some [84, 49] }).getD []).take 5) =
      (⟨[0xB3, 0x28, 0x00, 0x0B, 0x02], 11⟩,
       [{ testId := some [],
          _packet := some { length := 11, flags := { testId := true } } }],
       []) := by
  decide

/-- C2 is violated by the code: decoding the `{testId:"T1"}` packet whole
yields the correct record, but splitting it at byte boundary 5 (inside the
length-prefixed string payload) yields a single *different* record — the
first call emits a truncated `testId` and over-advances the cursor, the
second call then emits nothing. -/
theorem chunked_decode_c2 :
    (subunitTransform {} ((encodeRecord { testId := some [84, 49] }).getD [])).2.1 =
      [{ testId := some [84, 49],
         _packet := some { length := 11, flags := { testId := true } } }]
    ∧ (subunitTransform {}
        (((encodeRecord { testId := some [84, 49] }).getD []).take 5)).2.1 =
      [{ testId := some [],
         _packet := some { length := 11, flags := { testId := true } } }]
    ∧ (subunitTransform
        (subunitTransform {}
          (((encodeRecord { testId := some [84, 49] }).getD []).take 5)).1
        (((encodeRecord { testId := some [84, 49] }).getD []).drop 5)).2.1 = []
    ∧ ({ testId := some [],
         _packet := some { length := 11, flags := { testId := true } } } : Record) ≠
      { testId := some [84, 49],
        _packet := some { length := 11, flags := { testId := true } } } := by
  decide

/-- C7 counterexample: a single stray `0x00` before the minimal well-formed
packet does *not* yield that packet's record — the decoder mis-parses the
stray position as a packet header, hits a RangeError, and emits nothing —
although the packet alone does yield a record. -/
theorem stray_byte_c7_counterexample :
    (subunitTransform {} (0 :: (encodeRecord {}).getD [])).2.1 = []
    ∧ (subunitTransform {} ((encodeRecord {}).getD [])).2.1 ≠ [] := by
  decide

set_option maxRecDepth 4096 in
/-- C7 (amended): a non-signature byte at the cursor is reported as a
non-fatal framing error and parsing continues at that same position as if a
packet began there.  A packet whose signature byte is merely corrupted still
yields its record and the following packet is parsed normally; but a
well-formed packet behind a stray byte is not in general recovered (stray
`0x00` + minimal packet: error reported, nothing emitted, cursor pinned at
0), though for favourable byte patterns the downstream record does appear
after one garbage record. -/
theorem stray_byte_c7 :
    (subunitTransform {}
        ((0xB4 :: ((encodeRecord {}).getD []).drop 1) ++ (encodeRecord {}).getD [])).2 =
      ([{ _packet := some { length := 8, flags := {} } },
        { _packet := some { length := 8, flags := {} } }], [0])
    ∧ subunitTransform {} (0 :: (encodeRecord {}).getD []) =
      (⟨0 :: (encodeRecord {}).getD [], 0⟩, [], [0])
    ∧ ((subunitTransform {}
          (0 :: (encodeRecord { status := some "exists", testId := some [82, 77] }).getD [])).2.1.length = 2
       ∧ (subunitTransform {}
            (0 :: (encodeRecord { status := some "exists", testId := some [82, 77] }).getD [])).2.1[1]? =
          some { status := some "exists", testId := some [82, 77],
                 _packet := some { length := 11, flags := { testId := true } } }
       ∧ (subunitTransform {}
            (0 :: (encodeRecord { status := some "exists", testId := some [82, 77] }).getD [])).2.2 = [0]) := by
  decide

theorem writeVarIntN_small (v : Nat) (h : v < 64) : writeVarIntN v = some [v] := by
  unfold writeVarIntN
  rw [if_pos h]

theorem writeVarIntN_length_le (v : Nat) (w : List Nat)
    (h : writeVarIntN v = some w) : 1 ≤ w.length ∧ w.length ≤ 4 := by
  unfold writeVarIntN at h
  repeat' split at h
  all_goals cases h
  all_goals simp

set_option maxRecDepth 16384 in
/-- One decoder step on the wire image of the spec's full round-trip record
(testId "T1", status "success", tags ["a","b"], whole-millisecond timestamp),
for any nanosecond varint `nB` and any trailing 4 bytes `crc`. -/
theorem decodeStep_fullRecord (m : Nat) (nB crc : List Nat)
    (hm : m / 1000 < 4294967296)
    (hnB : writeVarIntN (encNanos m) = some nB) :
    decodeStep (179 :: 42 :: 131 :: (20 + nB.length) :: m / 1000 / 16777216 % 256 :: m / 1000 / 65536 % 256 :: m / 1000 / 256 % 256 :: m / 1000 % 256 :: (nB ++ 2 :: 84 :: 49 :: 2 :: 1 :: 97 :: 1 :: 98 :: crc)) 0 =
      ([], some (({ status := some "success", timestamp := some m, testId := some [84, 49], tags := some [[97], [98]], _packet := some { length := 20 + nB.length, flags := ({ testId := true, timestamp := true, tags := true } : Flags) } } : Record), 20 + nB.length)) := by
  obtain ⟨hnB1, hnB4⟩ := writeVarIntN_length_le _ _ hnB
  have hsB : writeUInt32BE (m / 1000) = some [m / 1000 / 16777216 % 256, m / 1000 / 65536 % 256, m / 1000 / 256 % 256, m / 1000 % 256] := by
    unfold writeUInt32BE
    rw [if_pos hm]
  have h8 : readUInt8 (179 :: 42 :: 131 :: (20 + nB.length) :: m / 1000 / 16777216 % 256 :: m / 1000 / 65536 % 256 :: m / 1000 / 256 % 256 :: m / 1000 % 256 :: (nB ++ 2 :: 84 :: 49 :: 2 :: 1 :: 97 :: 1 :: 98 :: crc)) 0 = some 179 := rfl
  have h16 : readUInt16BE (179 :: 42 :: 131 :: (20 + nB.length) :: m / 1000 / 16777216 % 256 :: m / 1000 / 65536 % 256 :: m / 1000 / 256 % 256 :: m / 1000 % 256 :: (nB ++ 2 :: 84 :: 49 :: 2 :: 1 :: 97 :: 1 :: 98 :: crc)) (0 + 1) = some 10883 := rfl
  have hlenv : readVarInt (179 :: 42 :: 131 :: (20 + nB.length) :: m / 1000 / 16777216 % 256 :: m / 1000 / 65536 % 256 :: m / 1000 / 256 % 256 :: m / 1000 % 256 :: (nB ++ 2 :: 84 :: 49 :: 2 :: 1 :: 97 :: 1 :: 98 :: crc)) (0 + 3) = some (1, 20 + nB.length) := by
    have h := readVarInt_writeVarIntN [179, 42, 131]
      ([m / 1000 / 16777216 % 256, m / 1000 / 65536 % 256, m / 1000 / 256 % 256, m / 1000 % 256] ++ (nB ++ ([2, 84, 49] ++ ([2, 1, 97, 1, 98] ++ crc))))
      [20 + nB.length] (20 + nB.length) (writeVarIntN_small _ (by omega))
    simpa using h
  have hu32 : readUInt32BE (179 :: 42 :: 131 :: (20 + nB.length) :: m / 1000 / 16777216 % 256 :: m / 1000 / 65536 % 256 :: m / 1000 / 256 % 256 :: m / 1000 % 256 :: (nB ++ 2 :: 84 :: 49 :: 2 :: 1 :: 97 :: 1 :: 98 :: crc)) (0 + 3 + 1) = some (m / 1000) := by
    have h := readUInt32BE_writeUInt32BE [179, 42, 131, 20 + nB.length]
      (nB ++ ([2, 84, 49] ++ ([2, 1, 97, 1, 98] ++ crc)))
      [m / 1000 / 16777216 % 256, m / 1000 / 65536 % 256, m / 1000 / 256 % 256, m / 1000 % 256] (m / 1000) hsB
    simpa using h
  have hnv : readVarInt (179 :: 42 :: 131 :: (20 + nB.length) :: m / 1000 / 16777216 % 256 :: m / 1000 / 65536 % 256 :: m / 1000 / 256 % 256 :: m / 1000 % 256 :: (nB ++ 2 :: 84 :: 49 :: 2 :: 1 :: 97 :: 1 :: 98 :: crc)) (0 + 3 + 1 + 4) = some (nB.length, encNanos m) := by
    have h := readVarInt_writeVarIntN
      [179, 42, 131, 20 + nB.length, m / 1000 / 16777216 % 256, m / 1000 / 65536 % 256, m / 1000 / 256 % 256, m / 1000 % 256]
      ([2, 84, 49] ++ ([2, 1, 97, 1, 98] ++ crc))
      nB (encNanos m) hnB
    simpa using h
  have htid : readUtf8 (179 :: 42 :: 131 :: (20 + nB.length) :: m / 1000 / 16777216 % 256 :: m / 1000 / 65536 % 256 :: m / 1000 / 256 % 256 :: m / 1000 % 256 :: (nB ++ 2 :: 84 :: 49 :: 2 :: 1 :: 97 :: 1 :: 98 :: crc)) (8 + nB.length) = some (3, [84, 49]) := by
    have h := readUtf8_writeUtf8
      ([179, 42, 131, 20 + nB.length, m / 1000 / 16777216 % 256, m / 1000 / 65536 % 256, m / 1000 / 256 % 256, m / 1000 % 256] ++ nB)
      ([2, 1, 97, 1, 98] ++ crc) [2, 84, 49] [84, 49] (by decide) rfl
    simpa [Nat.add_comm, Nat.add_left_comm, Nat.add_assoc] using h
  have hcnt : readVarInt (179 :: 42 :: 131 :: (20 + nB.length) :: m / 1000 / 16777216 % 256 :: m / 1000 / 65536 % 256 :: m / 1000 / 256 % 256 :: m / 1000 % 256 :: (nB ++ 2 :: 84 :: 49 :: 2 :: 1 :: 97 :: 1 :: 98 :: crc)) (11 + nB.length) = some (1, 2) := by
    have h := readVarInt_writeVarIntN
      ([179, 42, 131, 20 + nB.length, m / 1000 / 16777216 % 256, m / 1000 / 65536 % 256, m / 1000 / 256 % 256, m / 1000 % 256] ++ nB ++ [2, 84, 49])
      ([1, 97] ++ ([1, 98] ++ crc))
      [2] 2 (writeVarIntN_small 2 (by omega))
    simpa [Nat.add_comm, Nat.add_left_comm, Nat.add_assoc] using h
  have htag1 : readUtf8 (179 :: 42 :: 131 :: (20 + nB.length) :: m / 1000 / 16777216 % 256 :: m / 1000 / 65536 % 256 :: m / 1000 / 256 % 256 :: m / 1000 % 256 :: (nB ++ 2 :: 84 :: 49 :: 2 :: 1 :: 97 :: 1 :: 98 :: crc)) (12 + nB.length) = some (2, [97]) := by
    have h := readUtf8_writeUtf8
      ([179, 42, 131, 20 + nB.length, m / 1000 / 16777216 % 256, m / 1000 / 65536 % 256, m / 1000 / 256 % 256, m / 1000 % 256] ++ nB ++ [2, 84, 49, 2])
      ([1, 98] ++ crc) [1, 97] [97] (by decide) rfl
    simpa [Nat.add_comm, Nat.add_left_comm, Nat.add_assoc] using h
  have htag2 : readUtf8 (179 :: 42 :: 131 :: (20 + nB.length) :: m / 1000 / 16777216 % 256 :: m / 1000 / 65536 % 256 :: m / 1000 / 256 % 256 :: m / 1000 % 256 :: (nB ++ 2 :: 84 :: 49 :: 2 :: 1 :: 97 :: 1 :: 98 :: crc)) (14 + nB.length) = some (2, [98]) := by
    have h := readUtf8_writeUtf8
      ([179, 42, 131, 20 + nB.length, m / 1000 / 16777216 % 256, m / 1000 / 65536 % 256, m / 1000 / 256 % 256, m / 1000 % 256] ++ nB ++ [2, 84, 49, 2, 1, 97])
      crc [1, 98] [98] (by decide) rfl
    simpa [Nat.add_comm, Nat.add_left_comm, Nat.add_assoc] using h
  have hts : parseTimestamp (179 :: 42 :: 131 :: (20 + nB.length) :: m / 1000 / 16777216 % 256 :: m / 1000 / 65536 % 256 :: m / 1000 / 256 % 256 :: m / 1000 % 256 :: (nB ++ 2 :: 84 :: 49 :: 2 :: 1 :: 97 :: 1 :: 98 :: crc)) true (({ status := some "success", _packet := some { length := 20 + nB.length, flags := ({ testId := true, timestamp := true, tags := true } : Flags) } } : Record), 0 + 3 + 1) =
      some (({ status := some "success", timestamp := some m, _packet := some { length := 20 + nB.length, flags := ({ testId := true, timestamp := true, tags := true } : Flags) } } : Record), 8 + nB.length) := by
    unfold parseTimestamp
    rw [if_pos rfl, hu32]
    simp only [Option.bind_eq_bind, Option.some_bind]
    rw [hnv]
    simp only [Option.some_bind, Option.pure_def, Option.some.injEq,
      Prod.mk.injEq]
    constructor
    · have e1 : encNanos m = m % 1000 * 1000000 := by
        unfold encNanos
        omega
      have e2 : encNanos m / 1000000 = m % 1000 := by
        rw [e1]
        omega
      have hth : m / 1000 * 1000 + encNanos m / 1000000 = m := by
        rw [e2]
        omega
      rw [hth]
    · trivial
  have htsid : parseTestId (179 :: 42 :: 131 :: (20 + nB.length) :: m / 1000 / 16777216 % 256 :: m / 1000 / 65536 % 256 :: m / 1000 / 256 % 256 :: m / 1000 % 256 :: (nB ++ 2 :: 84 :: 49 :: 2 :: 1 :: 97 :: 1 :: 98 :: crc)) true (({ status := some "success", timestamp := some m, _packet := some { length := 20 + nB.length, flags := ({ testId := true, timestamp := true, tags := true } : Flags) } } : Record), 8 + nB.length) =
      some (({ status := some "success", timestamp := some m, testId := some [84, 49], _packet := some { length := 20 + nB.length, flags := ({ testId := true, timestamp := true, tags := true } : Flags) } } : Record), 11 + nB.length) := by
    unfold parseTestId
    rw [if_pos rfl, htid]
    simp only [Option.bind_eq_bind, Option.some_bind, Option.pure_def,
      Option.some.injEq, Prod.mk.injEq]
    exact ⟨trivial, by omega⟩
  have hrt : readTags (179 :: 42 :: 131 :: (20 + nB.length) :: m / 1000 / 16777216 % 256 :: m / 1000 / 65536 % 256 :: m / 1000 / 256 % 256 :: m / 1000 % 256 :: (nB ++ 2 :: 84 :: 49 :: 2 :: 1 :: 97 :: 1 :: 98 :: crc)) (11 + nB.length + 1) 2 = some ([[97], [98]], 4) := by
    rw [show 11 + nB.length + 1 = 12 + nB.length from by omega]
    unfold readTags
    rw [htag1]
    simp only [Option.bind_eq_bind, Option.some_bind]
    rw [show 12 + nB.length + 2 = 14 + nB.length from by omega]
    unfold readTags
    rw [htag2]
    simp only [Option.some_bind]
    unfold readTags
    simp
  have htags : parseTags (179 :: 42 :: 131 :: (20 + nB.length) :: m / 1000 / 16777216 % 256 :: m / 1000 / 65536 % 256 :: m / 1000 / 256 % 256 :: m / 1000 % 256 :: (nB ++ 2 :: 84 :: 49 :: 2 :: 1 :: 97 :: 1 :: 98 :: crc)) true (({ status := some "success", timestamp := some m, testId := some [84, 49], _packet := some { length := 20 + nB.length, flags := ({ testId := true, timestamp := true, tags := true } : Flags) } } : Record), 11 + nB.length) =
      some (({ status := some "success", timestamp := some m, testId := some [84, 49], tags := some [[97], [98]], _packet := some { length := 20 + nB.length, flags := ({ testId := true, timestamp := true, tags := true } : Flags) } } : Record), 16 + nB.length) := by
    unfold parseTags
    rw [if_pos rfl, hcnt]
    simp only [Option.bind_eq_bind, Option.some_bind]
    rw [hrt]
    simp only [Option.some_bind, Option.pure_def, Option.some.injEq,
      Prod.mk.injEq]
    exact ⟨trivial, by omega⟩
  unfold decodeStep
  rw [h8, h16, hlenv]
  simp only [Option.bind_eq_bind]
  rw [show statusOfCode (Nat.land 10883 0x0007) = some "success" from by decide]
  rw [show flagsOf 10883 = ({ testId := true, timestamp := true, tags := true } : Flags) from by decide]
  rw [show ({ testId := true, timestamp := true, tags := true } : Flags).timestamp = true from rfl,
    show ({ testId := true, timestamp := true, tags := true } : Flags).testId = true from rfl,
    show ({ testId := true, timestamp := true, tags := true } : Flags).tags = true from rfl,
    show ({ testId := true, timestamp := true, tags := true } : Flags).mimeType = false from rfl,
    show ({ testId := true, timestamp := true, tags := true } : Flags).fileContent = false from rfl,
    show ({ testId := true, timestamp := true, tags := true } : Flags).routeCode = false from rfl]
  rw [hts]
  simp only [Option.some_bind]
  rw [htsid]
  simp only [Option.some_bind]
  rw [htags]
  simp only [Option.some_bind]
  rw [show parseMimeType (179 :: 42 :: 131 :: (20 + nB.length) :: m / 1000 / 16777216 % 256 :: m / 1000 / 65536 % 256 :: m / 1000 / 256 % 256 :: m / 1000 % 256 :: (nB ++ 2 :: 84 :: 49 :: 2 :: 1 :: 97 :: 1 :: 98 :: crc)) false (({ status := some "success", timestamp := some m, testId := some [84, 49], tags := some [[97], [98]], _packet := some { length := 20 + nB.length, flags := ({ testId := true, timestamp := true, tags := true } : Flags) } } : Record), 16 + nB.length) =
    some (({ status := some "success", timestamp := some m, testId := some [84, 49], tags := some [[97], [98]], _packet := some { length := 20 + nB.length, flags := ({ testId := true, timestamp := true, tags := true } : Flags) } } : Record), 16 + nB.length) from rfl]
  simp only [Option.some_bind]
  rw [show parseFileContent (179 :: 42 :: 131 :: (20 + nB.length) :: m / 1000 / 16777216 % 256 :: m / 1000 / 65536 % 256 :: m / 1000 / 256 % 256 :: m / 1000 % 256 :: (nB ++ 2 :: 84 :: 49 :: 2 :: 1 :: 97 :: 1 :: 98 :: crc)) false (({ status := some "success", timestamp := some m, testId := some [84, 49], tags := some [[97], [98]], _packet := some { length := 20 + nB.length, flags := ({ testId := true, timestamp := true, tags := true } : Flags) } } : Record), 16 + nB.length) =
    some (({ status := some "success", timestamp := some m, testId := some [84, 49], tags := some [[97], [98]], _packet := some { length := 20 + nB.length, flags := ({ testId := true, timestamp := true, tags := true } : Flags) } } : Record), 16 + nB.length) from rfl]
  simp only [Option.some_bind]
  rw [show parseRouteCode (179 :: 42 :: 131 :: (20 + nB.length) :: m / 1000 / 16777216 % 256 :: m / 1000 / 65536 % 256 :: m / 1000 / 256 % 256 :: m / 1000 % 256 :: (nB ++ 2 :: 84 :: 49 :: 2 :: 1 :: 97 :: 1 :: 98 :: crc)) false (({ status := some "success", timestamp := some m, testId := some [84, 49], tags := some [[97], [98]], _packet := some { length := 20 + nB.length, flags := ({ testId := true, timestamp := true, tags := true } : Flags) } } : Record), 16 + nB.length) =
    some (({ status := some "success", timestamp := some m, testId := some [84, 49], tags := some [[97], [98]], _packet := some { length := 20 + nB.length, flags := ({ testId := true, timestamp := true, tags := true } : Flags) } } : Record), 16 + nB.length) from rfl]
  simp only [Option.some_bind, Option.pure_def]
  simp

/-- The record of the spec's full-packet round-trip test: testId "T1",
status "success", tags ["a","b"], and a whole-millisecond timestamp `m`. -/
def fullRecord (m : Nat) : Record :=
  { status := some "success", timestamp := some m,
     testId := some [84, 49], tags := some [[97], [98]] }

set_option maxRecDepth 16384 in
/-- C1: encoding the full test record and decoding the produced bytes yields
one record equal in every populated field, whose packet flags have exactly
testId, tags and timestamp set, and with no other field populated. -/
theorem record_roundtrip_c1 (m : Nat) (hm : m / 1000 < 4294967296) :
    ∃ P, encodeRecord (fullRecord m) = some P ∧
      subunitTransform {} P =
        (⟨P, P.length⟩,
         [{ status := some "success", timestamp := some m,
             testId := some [84, 49], tags := some [[97], [98]],
             _packet := some
               { length := P.length,
                  flags := { testId := true, timestamp := true,
                              tags := true } } }],
         []) := by
  have hnode : encNanos m ≤ 999000000 := by
    unfold encNanos
    omega
  obtain ⟨nB, hnB⟩ := writeVarIntN_isSome (encNanos m) (by omega)
  obtain ⟨hnB1, hnB4⟩ := writeVarIntN_length_le _ _ hnB
  have hflags : encodeFlags (fullRecord m) = 10883 := by
    unfold encodeFlags fullRecord
    simp only [Option.isSome_some, Option.isSome_none, Bool.and_self,
      if_true, if_false, Bool.and_false, Bool.false_and, ite_true, ite_false]
    decide
  have hsB : writeUInt32BE (m / 1000) = some [m / 1000 / 16777216 % 256, m / 1000 / 65536 % 256, m / 1000 / 256 % 256, m / 1000 % 256] := by
    unfold writeUInt32BE
    rw [if_pos hm]
  have hbody : encodeBody (fullRecord m) =
      some (([m / 1000 / 16777216 % 256, m / 1000 / 65536 % 256, m / 1000 / 256 % 256, m / 1000 % 256] ++ nB) ++
            [2, 84, 49] ++ [2, 1, 97, 1, 98] ++ [] ++ [] ++ []) := by
    unfold encodeBody fullRecord
    simp only [Option.bind_eq_bind, hnB, hsB, Option.some_bind]
    rfl
  have hblen : ((([m / 1000 / 16777216 % 256, m / 1000 / 65536 % 256, m / 1000 / 256 % 256, m / 1000 % 256] ++ nB) ++ [2, 84, 49] ++ [2, 1, 97, 1, 98] ++ [] ++ [] ++ []) : List Nat).length = 12 + nB.length := by
    simp
    omega
  have hP : encodeRecord (fullRecord m) = some (([179, 42, 131] ++ [20 + nB.length] ++ (([m / 1000 / 16777216 % 256, m / 1000 / 65536 % 256, m / 1000 / 256 % 256, m / 1000 % 256] ++ nB) ++ [2, 84, 49] ++ [2, 1, 97, 1, 98] ++ [] ++ [] ++ [])) ++ crc32Bytes ([179, 42, 131] ++ [20 + nB.length] ++ (([m / 1000 / 16777216 % 256, m / 1000 / 65536 % 256, m / 1000 / 256 % 256, m / 1000 % 256] ++ nB) ++ [2, 84, 49] ++ [2, 1, 97, 1, 98] ++ [] ++ [] ++ []))) := by
    unfold encodeRecord
    rw [hbody]
    simp only [Option.bind_eq_bind, Option.some_bind]
    rw [hblen]
    rw [show 3 + (12 + nB.length) + 4 = 19 + nB.length from by omega]
    rw [show lengthLengthOf (19 + nB.length) = some 1 from by
      unfold lengthLengthOf; rw [if_pos (by omega)]]
    simp only [Option.some_bind]
    rw [writeVarIntN_small (19 + nB.length + 1) (by omega)]
    simp only [Option.some_bind]
    rw [show 19 + nB.length + 1 = 20 + nB.length from by omega]
    rw [hflags]
    rfl
  refine ⟨([179, 42, 131] ++ [20 + nB.length] ++ (([m / 1000 / 16777216 % 256, m / 1000 / 65536 % 256, m / 1000 / 256 % 256, m / 1000 % 256] ++ nB) ++ [2, 84, 49] ++ [2, 1, 97, 1, 98] ++ [] ++ [] ++ [])) ++ crc32Bytes ([179, 42, 131] ++ [20 + nB.length] ++ (([m / 1000 / 16777216 % 256, m / 1000 / 65536 % 256, m / 1000 / 256 % 256, m / 1000 % 256] ++ nB) ++ [2, 84, 49] ++ [2, 1, 97, 1, 98] ++ [] ++ [] ++ [])), hP, ?_⟩
  have hshape : (([179, 42, 131] ++ [20 + nB.length] ++ (([m / 1000 / 16777216 % 256, m / 1000 / 65536 % 256, m / 1000 / 256 % 256, m / 1000 % 256] ++ nB) ++ [2, 84, 49] ++ [2, 1, 97, 1, 98] ++ [] ++ [] ++ [])) ++ crc32Bytes ([179, 42, 131] ++ [20 + nB.length] ++ (([m / 1000 / 16777216 % 256, m / 1000 / 65536 % 256, m / 1000 / 256 % 256, m / 1000 % 256] ++ nB) ++ [2, 84, 49] ++ [2, 1, 97, 1, 98] ++ [] ++ [] ++ [])) : List Nat) = 179 :: 42 :: 131 :: (20 + nB.length) :: m / 1000 / 16777216 % 256 :: m / 1000 / 65536 % 256 :: m / 1000 / 256 % 256 :: m / 1000 % 256 :: (nB ++ 2 :: 84 :: 49 :: 2 :: 1 :: 97 :: 1 :: 98 :: crc32Bytes ([179, 42, 131] ++ [20 + nB.length] ++ (([m / 1000 / 16777216 % 256, m / 1000 / 65536 % 256, m / 1000 / 256 % 256, m / 1000 % 256] ++ nB) ++ [2, 84, 49] ++ [2, 1, 97, 1, 98] ++ [] ++ [] ++ []))) := by
    simp
  rw [hshape]
  have hlen : (179 :: 42 :: 131 :: (20 + nB.length) :: m / 1000 / 16777216 % 256 :: m / 1000 / 65536 % 256 :: m / 1000 / 256 % 256 :: m / 1000 % 256 :: (nB ++ 2 :: 84 :: 49 :: 2 :: 1 :: 97 :: 1 :: 98 :: crc32Bytes ([179, 42, 131] ++ [20 + nB.length] ++ (([m / 1000 / 16777216 % 256, m / 1000 / 65536 % 256, m / 1000 / 256 % 256, m / 1000 % 256] ++ nB) ++ [2, 84, 49] ++ [2, 1, 97, 1, 98] ++ [] ++ [] ++ []))) : List Nat).length = 20 + nB.length := by
    simp [crc32Bytes]
    omega
  have hstep := decodeStep_fullRecord m nB (crc32Bytes ([179, 42, 131] ++ [20 + nB.length] ++ (([m / 1000 / 16777216 % 256, m / 1000 / 65536 % 256, m / 1000 / 256 % 256, m / 1000 % 256] ++ nB) ++ [2, 84, 49] ++ [2, 1, 97, 1, 98] ++ [] ++ [] ++ []))) hm hnB
  unfold subunitTransform
  simp only [List.nil_append]
  rw [hlen]
  rw [decodeLoop]
  rw [if_pos (by rw [hlen]; omega : (0:Nat) < (179 :: 42 :: 131 :: (20 + nB.length) :: m / 1000 / 16777216 % 256 :: m / 1000 / 65536 % 256 :: m / 1000 / 256 % 256 :: m / 1000 % 256 :: (nB ++ 2 :: 84 :: 49 :: 2 :: 1 :: 97 :: 1 :: 98 :: crc32Bytes ([179, 42, 131] ++ [20 + nB.length] ++ (([m / 1000 / 16777216 % 256, m / 1000 / 65536 % 256, m / 1000 / 256 % 256, m / 1000 % 256] ++ nB) ++ [2, 84, 49] ++ [2, 1, 97, 1, 98] ++ [] ++ [] ++ []))) : List Nat).length)]
  rw [hstep]
  have hloop0 : decodeLoop (20 + nB.length) (179 :: 42 :: 131 :: (20 + nB.length) :: m / 1000 / 16777216 % 256 :: m / 1000 / 65536 % 256 :: m / 1000 / 256 % 256 :: m / 1000 % 256 :: (nB ++ 2 :: 84 :: 49 :: 2 :: 1 :: 97 :: 1 :: 98 :: crc32Bytes (179 :: 42 :: 131 :: (20 + nB.length) :: m / 1000 / 16777216 % 256 :: m / 1000 / 65536 % 256 :: m / 1000 / 256 % 256 :: m / 1000 % 256 :: (nB ++ [2, 84, 49, 2, 1, 97, 1, 98])))) (20 + nB.length) =
      ([], [], (19 + nB.length) + 1) := by
    rw [show (20 + nB.length : Nat) = (19 + nB.length) + 1 from by omega]
    rw [decodeLoop]
    rw [if_neg (by simp [crc32Bytes]; omega)]
  simp [hloop0]
  omega

theorem record_roundtrip_c1_witness :
    ∃ P, encodeRecord (fullRecord 1456789012345) = some P ∧
      subunitTransform {} P =
        (⟨P, P.length⟩,
         [{ status := some "success", timestamp := some 1456789012345,
            testId := some [84, 49], tags := some [[97], [98]],
            _packet := some
              { length := P.length,
                flags := { testId := true, timestamp := true,
                           tags := true } } }],
         []) :=
  record_roundtrip_c1 1456789012345 (by decide)

end Subunit
